import Mathlib

/-!
Verification development for the social-media view-count aggregator
(`parser.py`): a link classifier turning raw URLs into typed post
references (VK / Telegram / OK.ru), three platform fetchers with
distinct failure semantics, and an aggregator that sums platform
subtotals and reports either a numeric total or a no-data outcome.

The Python code is embedded shallowly: pure string processing is
translated function by function; the regular expressions used by the
source are small enough that their `re.search` behaviour is embedded as
deterministic scanners (for each pattern the greedy/backtracking
behaviour is forced, as argued in the comments next to each scanner);
network interaction is modelled by passing the remote side's per-call
outcome as an explicit argument.
-/

namespace Parsr

/-- Whitespace characters recognised by Python's default str.strip and
by the regex class backslash-s (space, tab, LF, CR, VT, FF). -/
def isSpacePy (c : Char) : Bool :=
  c = ' ' || c = '\t' || c = '\n' || c = '\r' || c = Char.ofNat 11 || c = Char.ofNat 12

/-- Lowercasing of a single character as Python str.lower does it on the
alphabets that occur in this program: ASCII A-Z and Cyrillic А-Я / Ё. -/
def pyLowerC (c : Char) : Char :=
  if 'A' ≤ c && c ≤ 'Z' then Char.ofNat (c.toNat + 32)
  else if 0x410 ≤ c.toNat && c.toNat ≤ 0x42F then Char.ofNat (c.toNat + 0x20)
  else if c.toNat = 0x401 then Char.ofNat 0x451
  else c

def pyLowerL (l : List Char) : List Char := l.map pyLowerC

def pyLowerS (s : String) : String := String.mk (pyLowerL s.toList)

/-- Decides whether the first list is an initial segment of the second. -/
def isPrefixOfL : List Char → List Char → Bool
  | [], _ => true
  | _ :: _, [] => false
  | a :: as, b :: bs => a = b && isPrefixOfL as bs

/-- Substring containment, the semantics of Python's `in` on strings. -/
def containsL (pat : List Char) : List Char → Bool
  | [] => pat.isEmpty
  | b :: bs => isPrefixOfL pat (b :: bs) || containsL pat bs

/-- Consumes a literal prefix, returning the remainder on success. -/
def dropLit (pat : List Char) (l : List Char) : Option (List Char) :=
  if isPrefixOfL pat l then some (l.drop pat.length) else none

def natOfDigits (ds : List Char) : Nat :=
  ds.foldl (fun a c => 10 * a + (c.toNat - 48)) 0

/-- Fuel-driven decimal rendering of a natural number (one digit per
division by ten); fuel `n + 1` always suffices. -/
def natDigitsAux : Nat → Nat → List Char
  | 0, _ => []
  | fuel + 1, n =>
    if n < 10 then [Char.ofNat (48 + n)]
    else natDigitsAux fuel (n / 10) ++ [Char.ofNat (48 + n % 10)]

def natStr (n : Nat) : String := String.mk (natDigitsAux (n + 1) n)

/-- Decimal rendering of an integer, as Python f-string formatting of an
int produces it (a leading minus sign for negative values). -/
def intStr (i : Int) : String :=
  if i < 0 then "-" ++ natStr i.natAbs else natStr i.natAbs

/-- Accumulator-based extraction of all maximal digit runs, the
behaviour of `re.findall` with a digit-run pattern followed by `int`. -/
def digitRunsAux : List Char → List Char → List Nat
  | acc, [] => if acc.isEmpty then [] else [natOfDigits acc.reverse]
  | acc, c :: rest =>
    if c.isDigit then digitRunsAux (c :: acc) rest
    else if acc.isEmpty then digitRunsAux [] rest
    else natOfDigits acc.reverse :: digitRunsAux [] rest

def digitRuns (l : List Char) : List Nat := digitRunsAux [] l

/-- Leftmost-match search: tries the position matcher at every suffix,
left to right, the way `re.search` walks its starting positions. -/
def searchPos {α : Type} (f : List Char → Option α) : List Char → Option α
  | [] => f []
  | a :: t =>
    match f (a :: t) with
    | some x => some x
    | none => searchPos f t

/-- Characters up to (excluding) the first occurrence of `c`; this is
Python's `s.split(c)[0]`. -/
def takeUntil (c : Char) : List Char → List Char
  | [] => []
  | a :: t => if a = c then [] else a :: takeUntil c t

/-- Python str.strip with the default whitespace set. -/
def stripPy (s : String) : String :=
  String.mk (((s.toList.dropWhile isSpacePy).reverse.dropWhile isSpacePy).reverse)

/-! ## Data model -/

structure VKPost where
  post_id : String
  original_link : String
deriving DecidableEq

structure TelegramPost where
  channel : String
  message_id : Nat
  original_link : String
deriving DecidableEq

structure OKPost where
  group_name : String
  topic_id : String
  original_link : String
deriving DecidableEq

structure ViewResult where
  link : String
  views : Nat
deriving DecidableEq

structure Classified where
  vk : List VKPost
  telegram : List TelegramPost
  ok : List OKPost
deriving DecidableEq

/-! ## Link classifier (SocialMediaParser)

`read_links_from_file` strips every line, drops empty ones and caps the
result at the first 100 entries (the FileNotFound / IO-error paths of
the source return an empty list and are outside this model).
-/

def read_links_from_file (lines : List String) : List String :=
  let links := (lines.map stripPy).filter (fun s => s ≠ "")
  if links.length > 100 then links.take 100 else links

/-- Position matcher for the VK regex `wall-?(\d+)_(\d+)`.  The optional
minus and both greedy digit runs are forced (a shorter digit run would
have to be followed by a digit, which neither the underscore literal nor
the pattern end accepts), so the scanner is deterministic. -/
def vkPat1Here (l : List Char) : Option (String × String) :=
  match dropLit [ 'w', 'a', 'l', 'l' ] l with
  | none => none
  | some r =>
    let r1 := match r with
      | '-' :: t => t
      | _ => r
    let d1 := r1.takeWhile Char.isDigit
    if d1.isEmpty then none
    else
      match r1.drop d1.length with
      | '_' :: r2 =>
        let d2 := r2.takeWhile Char.isDigit
        if d2.isEmpty then none else some (String.mk d1, String.mk d2)
      | _ => none

/-- Digit-underscore-digit composite, the group `(\d+_\d+)` shared by
the second and third VK patterns. -/
def compositeHere (l : List Char) : Option String :=
  let d1 := l.takeWhile Char.isDigit
  if d1.isEmpty then none
  else
    match l.drop d1.length with
    | '_' :: r2 =>
      let d2 := r2.takeWhile Char.isDigit
      if d2.isEmpty then none else some (String.mk (d1 ++ '_' :: d2))
    | _ => none

/-- Position matcher for `vk\.com/(?:wall)?(\d+_\d+)`; if the optional
literal `wall` is present it must be consumed, because the fall-back
branch would need a digit at the letter w. -/
def vkPat2Here (l : List Char) : Option String :=
  match dropLit "vk.com/".toList l with
  | none => none
  | some r =>
    let r1 := if isPrefixOfL "wall".toList r then r.drop 4 else r
    compositeHere r1

/-- Characters matched by the class `[\w\.]` (ASCII word characters or
a dot). -/
def isWordDot (c : Char) : Bool := c.isAlphanum || c = '_' || c = '.'

/-- Position matcher for `vk\.com/(?:[\w\.]+)\?w=wall-(\d+_\d+)`; the
greedy name run is forced because a question mark is not a word/dot
character. -/
def vkPat3Here (l : List Char) : Option String :=
  match dropLit "vk.com/".toList l with
  | none => none
  | some r =>
    let w := r.takeWhile isWordDot
    if w.isEmpty then none
    else
      match dropLit "?w=wall-".toList (r.drop w.length) with
      | none => none
      | some r2 => compositeHere r2

/-- Embeds `SocialMediaParser._extract_vk_post`: the three patterns are
tried in order over the lowercased link, the first match wins, and for
the first pattern the owner id is normalised to carry a leading minus. -/
def extract_vk_post (link : String) (original : String) : Option VKPost :=
  match searchPos vkPat1Here link.toList with
  | some (o, p) =>
    let owner := if isPrefixOfL [ '-' ] o.toList then o else "-" ++ o
    some ⟨owner ++ "_" ++ p, original⟩
  | none =>
    match searchPos vkPat2Here link.toList with
    | some pid => some ⟨pid, original⟩
    | none =>
      match searchPos vkPat3Here link.toList with
      | some pid => some ⟨pid, original⟩
      | none => none

/-- Python's `link.split('?')[0].split('#')[0]`. -/
def cleanLink (l : List Char) : List Char := takeUntil '#' (takeUntil '?' l)

/-- Capture part `([^/\?]+)/(\d+)` of the public Telegram pattern; the
captured run cannot contain a slash, so it is forced to end at the first
slash and the scanner is deterministic. -/
def tgCaptureHere (r : List Char) : Option (String × Nat) :=
  let c1 := r.takeWhile (fun c => c ≠ '/' && c ≠ '?')
  if c1.isEmpty then none
  else
    match r.drop c1.length with
    | '/' :: r2 =>
      let d := r2.takeWhile Char.isDigit
      if d.isEmpty then none else some (String.mk c1, natOfDigits d)
    | _ => none

/-- Host alternation `(?:t\.me|telegram\.me)/` of both Telegram
patterns. -/
def tgHost (l : List Char) : Option (List Char) :=
  match dropLit "t.me/".toList l with
  | some r => some r
  | none => dropLit "telegram.me/".toList l

/-- Position matcher for `(?:t\.me|telegram\.me)/(?:s/)?([^/\?]+)/(\d+)`:
the optional `s/` is tried first (regex greediness) with fall-back to
not consuming it. -/
def tgPatAHere (l : List Char) : Option (String × Nat) :=
  match tgHost l with
  | none => none
  | some r =>
    match (if isPrefixOfL "s/".toList r then tgCaptureHere (r.drop 2) else none) with
    | some x => some x
    | none => tgCaptureHere r

/-- Position matcher for the private-channel pattern
`(?:t\.me|telegram\.me)/c/(\d+)/(\d+)`. -/
def tgPatBHere (l : List Char) : Option (String × Nat) :=
  match tgHost l with
  | none => none
  | some r =>
    match dropLit "c/".toList r with
    | none => none
    | some r1 =>
      let d1 := r1.takeWhile Char.isDigit
      if d1.isEmpty then none
      else
        match r1.drop d1.length with
        | '/' :: r2 =>
          let d2 := r2.takeWhile Char.isDigit
          if d2.isEmpty then none else some (String.mk d1, natOfDigits d2)
        | _ => none

/-- Ordered pattern list of `_extract_telegram_post` applied to an
already cleaned link. -/
def tg_match (l : List Char) : Option (String × Nat) :=
  match searchPos tgPatAHere l with
  | some x => some x
  | none => searchPos tgPatBHere l

/-- Embeds `SocialMediaParser._extract_telegram_post`: the query string
and fragment are stripped first, then the two patterns are tried in
order and a leading at-sign is removed from the channel. -/
def extract_telegram_post (link : String) (original : String) : Option TelegramPost :=
  match tg_match (cleanLink link.toList) with
  | some (ch, mid) =>
    let channel := if isPrefixOfL [ '@' ] ch.toList then String.mk (ch.toList.drop 1) else ch
    some ⟨channel, mid, original⟩
  | none => none

/-- Position matcher for `ok\.ru/([^/\?]+)/<word>/(\d+)` with `word`
being `topic` or `status`; the captured run is forced to end at the
first slash. -/
def okNamePatHere (word : List Char) (l : List Char) : Option (String × String) :=
  match dropLit "ok.ru/".toList l with
  | none => none
  | some r =>
    let name := r.takeWhile (fun c => c ≠ '/' && c ≠ '?')
    if name.isEmpty then none
    else
      match dropLit ('/' :: word ++ [ '/' ]) (r.drop name.length) with
      | none => none
      | some r2 =>
        let d := r2.takeWhile Char.isDigit
        if d.isEmpty then none else some (String.mk name, String.mk d)

/-- Position matcher for `ok\.ru/(?:group)?(\d+)/topic/(\d+)`. -/
def okPat3Here (l : List Char) : Option (String × String) :=
  match dropLit "ok.ru/".toList l with
  | none => none
  | some r =>
    let r1 := if isPrefixOfL "group".toList r then r.drop 5 else r
    let d1 := r1.takeWhile Char.isDigit
    if d1.isEmpty then none
    else
      match dropLit "/topic/".toList (r1.drop d1.length) with
      | none => none
      | some r2 =>
        let d2 := r2.takeWhile Char.isDigit
        if d2.isEmpty then none else some (String.mk d1, String.mk d2)

/-- Embeds `SocialMediaParser._extract_ok_post`: three patterns tried
in order, first match wins. -/
def extract_ok_post (link : String) (original : String) : Option OKPost :=
  match searchPos (okNamePatHere "topic".toList) link.toList with
  | some (g, t) => some ⟨g, t, original⟩
  | none =>
    match searchPos (okNamePatHere "status".toList) link.toList with
    | some (g, t) => some ⟨g, t, original⟩
    | none =>
      match searchPos okPat3Here link.toList with
      | some (g, t) => some ⟨g, t, original⟩
      | none => none

/-- Platform test `'vk.com' in link_lower or link_lower.startswith('wall')`. -/
def vkDetect (ll : String) : Bool :=
  containsL "vk.com".toList ll.toList || isPrefixOfL "wall".toList ll.toList

/-- Platform test `'t.me' in link_lower or 'telegram.me' in link_lower`. -/
def tgDetect (ll : String) : Bool :=
  containsL "t.me".toList ll.toList || containsL "telegram.me".toList ll.toList

/-- Platform test `'ok.ru' in link_lower`. -/
def okDetect (ll : String) : Bool := containsL "ok.ru".toList ll.toList

/-- One iteration of the `extract_post_ids` loop: the lowercased link is
dispatched by the if/elif platform chain and the matching extractor
appends at most one reference to its platform's list. -/
def classifyStep (acc : Classified) (link : String) : Classified :=
  let ll := pyLowerS link
  if vkDetect ll then { acc with vk := acc.vk ++ (extract_vk_post ll link).toList }
  else if tgDetect ll then
    { acc with telegram := acc.telegram ++ (extract_telegram_post ll link).toList }
  else if okDetect ll then { acc with ok := acc.ok ++ (extract_ok_post ll link).toList }
  else acc

/-- Embeds `SocialMediaParser.extract_post_ids`. -/
def extract_post_ids (links : List String) : Classified :=
  links.foldl classifyStep ⟨[], [], []⟩

/-- Per-link VK contribution of the classifier (used to state order
preservation of `extract_post_ids` as a filterMap). -/
def vkF (link : String) : Option VKPost :=
  let ll := pyLowerS link
  if vkDetect ll then extract_vk_post ll link else none

/-- Per-link Telegram contribution of the classifier. -/
def tgF (link : String) : Option TelegramPost :=
  let ll := pyLowerS link
  if !vkDetect ll && tgDetect ll then extract_telegram_post ll link else none

/-- Per-link OK contribution of the classifier. -/
def okF (link : String) : Option OKPost :=
  let ll := pyLowerS link
  if !vkDetect ll && !tgDetect ll && okDetect ll then extract_ok_post ll link else none

/-! ## VK fetcher (VKParser.get_views)

The single batch HTTP call is modelled by its outcome: a transport-level
exception (which the outer try/except of the source turns into the
`(0, [])` return, covering request exceptions and JSON decoding errors
alike), or a response with an HTTP status and a JSON body that is either
an API error object or an item list.
-/

structure VKItem where
  owner_id : Int
  id : Int
  views_count : Nat
deriving DecidableEq

inductive VKBody where
  | err (msg : String)
  | ok (items : List VKItem)
deriving DecidableEq

inductive VKResponse where
  | fail
  | resp (status : Nat) (body : VKBody)
deriving DecidableEq

/-- Composite key the source builds for a response item, the f-string of
`owner_id` and `id`. -/
def vkKey (it : VKItem) : String := intStr it.owner_id ++ "_" ++ intStr it.id

/-- Association list standing for the `post_views` dict, in item order. -/
def buildViews (items : List VKItem) : List (String × Nat) :=
  items.map (fun it => (vkKey it, it.views_count))

/-- Dict lookup with default 0; the last binding wins, as assignment
into a Python dict overwrites earlier ones. -/
def dGet (m : List (String × Nat)) (k : String) : Nat :=
  match m.reverse.find? (fun p => p.1 == k) with
  | some p => p.2
  | none => 0

/-- Per-post loop of `VKParser.get_views` on the success path: look the
composite id up (default 0), add to the running total, append the
result. -/
def vk_loop (m : List (String × Nat)) : List VKPost → Nat × List ViewResult
  | [] => (0, [])
  | p :: rest =>
    let v := dGet m p.post_id
    let r := vk_loop m rest
    (v + r.1, ⟨p.original_link, v⟩ :: r.2)

/-- Embeds `VKParser.get_views`: empty input and missing token
short-circuit to `(0, [])`; a transport failure, an HTTP error status
(`raise_for_status` fires at 400 and above) and an API error body all
yield `(0, [])`; on success the per-post loop runs. -/
def vk_get_views (hasToken : Bool) (posts : List VKPost) (resp : VKResponse) :
    Nat × List ViewResult :=
  if posts.isEmpty then (0, [])
  else if !hasToken then (0, [])
  else
    match resp with
    | .fail => (0, [])
    | .resp status body =>
      if 400 ≤ status then (0, [])
      else
        match body with
        | .err _ => (0, [])
        | .ok items => vk_loop (buildViews items) posts

/-! ## Telegram fetcher (TelegramParser.get_views_async)

Each post's remote interaction is modelled by its outcome: a message
successfully resolved (whose `views` attribute may be missing/None), a
FloodWaitError carrying a wait in seconds, or any other exception.
Waiting is modelled by an accumulated duration in milliseconds: the
politeness delay `asyncio.sleep(0.5)` contributes 500 per processed
post and a flood wait contributes `1000 * seconds`.
-/

inductive TgOutcome where
  | success (views : Option Nat)
  | floodWait (seconds : Nat)
  | failure
deriving DecidableEq

structure TgFetch where
  total : Nat
  results : List ViewResult
  waitMs : Nat
deriving DecidableEq

/-- Contribution of one iteration of the `get_views_async` loop:
success records the view counter (absent field giving 0) and adds it to
the total; a flood wait sleeps the announced duration and records
nothing; any other failure records a zero result.  Every branch ends
with the 500 ms politeness delay. -/
def tgStep : TelegramPost × TgOutcome → TgFetch
  | (p, .success v) => ⟨v.getD 0, [⟨p.original_link, v.getD 0⟩], 500⟩
  | (_, .floodWait s) => ⟨0, [], 1000 * s + 500⟩
  | (p, .failure) => ⟨0, [⟨p.original_link, 0⟩], 500⟩

/-- Sequential per-post loop of `TelegramParser.get_views_async`. -/
def tg_loop : List (TelegramPost × TgOutcome) → TgFetch
  | [] => ⟨0, [], 0⟩
  | w :: rest =>
    let a := tgStep w
    let b := tg_loop rest
    ⟨a.total + b.total, a.results ++ b.results, a.waitMs + b.waitMs⟩

/-- Embeds `TelegramParser.get_views_async`: empty input, missing
credentials and a failed connection each short-circuit to an empty
fetch, otherwise the per-post loop runs once over the whole batch. -/
def tg_get_views_async (creds connected : Bool)
    (work : List (TelegramPost × TgOutcome)) : TgFetch :=
  if work.isEmpty then ⟨0, [], 0⟩
  else if !creds then ⟨0, [], 0⟩
  else if !connected then ⟨0, [], 0⟩
  else tg_loop work

/-! ## OK fetcher (OKParser) and its HTML heuristic -/

/-- Element of the parsed page as the heuristic sees it: the (space
joined) class attribute, the data-l and data-module attributes and the
element text. -/
structure Elem where
  classAttr : String
  dataL : String
  dataModule : String
  text : String
deriving DecidableEq

/-- Parsed page: elements, bare text nodes, and meta-tag content
attributes. -/
structure Soup where
  elems : List Elem
  strs : List String
  metas : List String
deriving DecidableEq

/-- Case-insensitive containment check, the effect of searching with a
lowercase literal pattern compiled with `re.I`. -/
def ciContains (pat : String) (hay : String) : Bool :=
  containsL pat.toList (pyLowerL hay.toList)

/-- The five `view_selectors` of `_extract_views_from_html`, in source
order: class matching view / count / visitors, data-l matching view,
data-module matching like. -/
def selectors : List (Elem → Bool) :=
  [ fun e => ciContains "view" e.classAttr,
    fun e => ciContains "count" e.classAttr,
    fun e => ciContains "visitors" e.classAttr,
    fun e => ciContains "view" e.dataL,
    fun e => ciContains "like" e.dataModule ]

/-- Range filter `10 < int(n) < 1000000` applied to every collected
number. -/
def inRange (n : Nat) : Bool := 10 < n && n < 1000000

/-- Numbers of an element text after stripping spaces and commas, as in
`text.replace(' ', '').replace(',', '')` followed by digit findall. -/
def elemNums (e : Elem) : List Nat :=
  digitRuns (e.text.toList.filter (fun c => !(c = ' ' || c = ',')))

def concatAll (ls : List (List Nat)) : List Nat := ls.foldr (fun a b => a ++ b) []

/-- Words of the text-node pattern (localized count nouns). -/
def countWordAt (l : List Char) : Bool :=
  isPrefixOfL "просмотр".toList l || isPrefixOfL "лайк".toList l ||
    isPrefixOfL "участник".toList l

/-- Tail of the text-node pattern after its first digit: the remaining
digits and following whitespace are consumed greedily (forced, because
the count nouns start with a letter) before the noun is required. -/
def afterDigits (l : List Char) : Bool :=
  countWordAt ((l.dropWhile Char.isDigit).dropWhile isSpacePy)

/-- Search for `\d+\s*(?:просмотр|лайк|участник)` on a lowercased text,
the text-node filter of the heuristic. -/
def hasCountWord : List Char → Bool
  | [] => false
  | c :: rest => (c.isDigit && afterDigits rest) || hasCountWord rest

/-- Collected numbers for one text node, with the range filter the
source applies at collection time. -/
def strNums (t : String) : List Nat :=
  if hasCountWord (pyLowerL t.toList) then (digitRuns t.toList).filter inRange else []

/-- Collected numbers for one meta content attribute. -/
def metaNums (c : String) : List Nat :=
  if containsL "просмотр".toList (pyLowerL c.toList) then
    (digitRuns c.toList).filter inRange
  else []

/-- Maximum of a number list, 0 when empty; on lists of naturals this
coincides with guarding Python's `max` by an emptiness test. -/
def maxOr0 (l : List Nat) : Nat := l.foldl Nat.max 0

/-- Embeds `OKParser._extract_views_from_html`: numbers are collected
from selector-matched elements, from count-noun text nodes and from
view-mentioning meta tags, each filtered into the plausible range; the
result is the maximum collected number or 0. -/
def extract_views_from_html (soup : Soup) : Nat :=
  let a1 := concatAll (selectors.map (fun sel =>
    concatAll ((soup.elems.filter sel).map (fun e => (elemNums e).filter inRange))))
  let a2 := concatAll (soup.strs.map strNums)
  let a3 := concatAll (soup.metas.map metaNums)
  maxOr0 (a1 ++ a2 ++ a3)

/-- Every number the three scans would collect before the range filter
(specification-side view of the candidate pool). -/
def allCandidates (soup : Soup) : List Nat :=
  concatAll (selectors.map (fun sel =>
    concatAll ((soup.elems.filter sel).map elemNums)))
  ++ concatAll (soup.strs.map (fun t =>
    if hasCountWord (pyLowerL t.toList) then digitRuns t.toList else []))
  ++ concatAll (soup.metas.map (fun c =>
    if containsL "просмотр".toList (pyLowerL c.toList) then digitRuns c.toList else []))

/-- Outcome of the one unauthenticated page fetch for an OK post. -/
inductive OKOutcome where
  | transport
  | resp (status : Nat) (page : Soup)
deriving DecidableEq

/-- Per-post loop of `OKParser.get_views`: a 200 response is parsed by
the heuristic, any other status and a transport error leave the views at
0, and a result is appended for every post. -/
def ok_loop : List (OKPost × OKOutcome) → Nat × List ViewResult
  | [] => (0, [])
  | (p, o) :: rest =>
    let v := match o with
      | .resp status page => if status = 200 then extract_views_from_html page else 0
      | .transport => 0
    let r := ok_loop rest
    (v + r.1, ⟨p.original_link, v⟩ :: r.2)

/-- Embeds `OKParser.get_views`. -/
def ok_get_views (work : List (OKPost × OKOutcome)) : Nat × List ViewResult :=
  if work.isEmpty then (0, []) else ok_loop work

/-! ## Aggregator (main) -/

inductive Report where
  | noData
  | total (n : Nat)
deriving DecidableEq

/-- Sum of the platform subtotals as `main` accumulates it: a platform
whose reference list is empty is skipped and contributes nothing. -/
def guardedTotal (c : Classified) (vkSub tgSub okSub : Nat) : Nat :=
  (if c.vk.isEmpty then 0 else vkSub) + (if c.telegram.isEmpty then 0 else tgSub)
    + (if c.ok.isEmpty then 0 else okSub)

/-- Final accumulation of `main`: each platform with a non-empty
reference list contributes its fetcher subtotal; a positive grand total
is reported as a number, otherwise the distinct no-data message is
printed. -/
def aggregate_report (c : Classified) (vkSub tgSub okSub : Nat) : Report :=
  if 0 < guardedTotal c vkSub tgSub okSub then .total (guardedTotal c vkSub tgSub okSub)
  else .noData

/-- Embeds the `main` pipeline around the aggregation, with the three
platform subtotals abstracted as the values their fetchers return: read
the links (capped at 100), stop silently when none, classify once and
report. -/
def main_report (lines : List String) (vkSub tgSub okSub : Nat) : Option Report :=
  let links := read_links_from_file lines
  if links.isEmpty then none
  else some (aggregate_report (extract_post_ids links) vkSub tgSub okSub)

/-! Specification-side per-post views of the Telegram loop, used to
state what each outcome contributes. -/

/-- View result one loop iteration records: none for a flood wait, a
zero result for any other failure, the view counter on success. -/
def tgStepRes : TelegramPost × TgOutcome → Option ViewResult
  | (p, .success v) => some ⟨p.original_link, v.getD 0⟩
  | (_, .floodWait _) => none
  | (p, .failure) => some ⟨p.original_link, 0⟩

/-- Amount one loop iteration adds to the running total: only a success
contributes. -/
def tgStepViews : TelegramPost × TgOutcome → Option Nat
  | (_, .success v) => some (v.getD 0)
  | _ => none

/-- Announced flood-wait duration of one iteration (zero otherwise). -/
def tgWaitSecs : TelegramPost × TgOutcome → Nat
  | (_, .floodWait s) => s
  | _ => 0

/-! ## Lemmas about the loops -/

theorem tg_loop_results (work : List (TelegramPost × TgOutcome)) :
    (tg_loop work).results = work.filterMap tgStepRes := by
  induction work with
  | nil => rfl
  | cons w rest ih =>
    obtain ⟨p, o⟩ := w
    cases o <;> simp [tg_loop, tgStep, tgStepRes, List.filterMap_cons, ih]

theorem tg_loop_total (work : List (TelegramPost × TgOutcome)) :
    (tg_loop work).total = (work.filterMap tgStepViews).sum := by
  induction work with
  | nil => rfl
  | cons w rest ih =>
    obtain ⟨p, o⟩ := w
    cases o <;> simp [tg_loop, tgStep, tgStepViews, List.filterMap_cons, ih]

theorem tg_loop_wait (work : List (TelegramPost × TgOutcome)) :
    (tg_loop work).waitMs = 500 * work.length + 1000 * (work.map tgWaitSecs).sum := by
  induction work with
  | nil => rfl
  | cons w rest ih =>
    obtain ⟨p, o⟩ := w
    cases o <;> simp [tg_loop, tgStep, tgWaitSecs, ih, List.length_cons] <;> ring

theorem tg_loop_total_eq_sum (work : List (TelegramPost × TgOutcome)) :
    (tg_loop work).total = ((tg_loop work).results.map ViewResult.views).sum := by
  induction work with
  | nil => rfl
  | cons w rest ih =>
    obtain ⟨p, o⟩ := w
    cases o <;> simp [tg_loop, tgStep, ih]

theorem ok_loop_total_eq_sum (work : List (OKPost × OKOutcome)) :
    (ok_loop work).1 = ((ok_loop work).2.map ViewResult.views).sum := by
  induction work with
  | nil => rfl
  | cons w rest ih =>
    obtain ⟨p, o⟩ := w
    cases o <;> simp [ok_loop, ih]

theorem vk_loop_eq (m : List (String × Nat)) (posts : List VKPost) :
    vk_loop m posts
      = ((posts.map (fun p => dGet m p.post_id)).sum,
         posts.map (fun p => ViewResult.mk p.original_link (dGet m p.post_id))) := by
  induction posts with
  | nil => rfl
  | cons p rest ih => simp [vk_loop, ih]

theorem dGet_eq_zero (m : List (String × Nat)) (k : String)
    (h : k ∉ m.map Prod.fst) : dGet m k = 0 := by
  unfold dGet
  have hn : m.reverse.find? (fun p => p.1 == k) = none := by
    rw [List.find?_eq_none]
    intro x hx hbeq
    have hk : x.1 = k := beq_iff_eq.mp hbeq
    exact h (hk ▸ List.mem_map_of_mem Prod.fst (List.mem_reverse.mp hx))
  rw [hn]

theorem buildViews_keys (items : List VKItem) :
    (buildViews items).map Prod.fst = items.map vkKey := by
  simp [buildViews, List.map_map, Function.comp]

/-- C2: in the Telegram fetcher a rate-limited post is waited out for
exactly the announced duration (1000 ms per announced second, on top of
the fixed 500 ms politeness delay every post gets) and then skipped: it
appears in no returned view result and adds nothing to the total; any
other per-post failure is recorded as a zero-view result and the batch
continues; in the concrete batch where post 2 is rate-limited with
wait 5 and posts 1 and 3 succeed with views 10 and 20, the fetch returns
exactly the results of posts 1 and 3 and total 30, with the 5-second
wait included in the accumulated delay. -/
theorem tg_rate_limit_semantics (work : List (TelegramPost × TgOutcome)) :
    (tg_loop work).results = work.filterMap tgStepRes
    ∧ (tg_loop work).total = (work.filterMap tgStepViews).sum
    ∧ (tg_loop work).waitMs = 500 * work.length + 1000 * (work.map tgWaitSecs).sum
    ∧ tg_get_views_async true true
        [(⟨"a", 1, "t.me/a/1"⟩, .success (some 10)),
         (⟨"b", 2, "t.me/b/2"⟩, .floodWait 5),
         (⟨"c", 3, "t.me/c/3"⟩, .success (some 20))]
      = ⟨30, [⟨"t.me/a/1", 10⟩, ⟨"t.me/c/3", 20⟩], 6500⟩ :=
  ⟨tg_loop_results work, tg_loop_total work, tg_loop_wait work, by decide⟩

/-- C10: for every input batch and every sequence of per-post outcomes,
the total returned by the Telegram fetcher and by the OK fetcher equals
the sum of the views fields of the result list returned by that same
call. -/
theorem fetch_total_consistency (creds connected : Bool)
    (tgWork : List (TelegramPost × TgOutcome)) (okWork : List (OKPost × OKOutcome)) :
    (tg_get_views_async creds connected tgWork).total
      = ((tg_get_views_async creds connected tgWork).results.map ViewResult.views).sum
    ∧ (ok_get_views okWork).1 = ((ok_get_views okWork).2.map ViewResult.views).sum := by
  constructor
  · unfold tg_get_views_async
    by_cases h1 : tgWork.isEmpty = true <;> by_cases h2 : creds = true <;>
      by_cases h3 : connected = true <;>
      simp [h1, h2, h3, tg_loop_total_eq_sum]
  · unfold ok_get_views
    by_cases h1 : okWork.isEmpty = true <;> simp [h1, ok_loop_total_eq_sum]

/-- C3: on a successful VK batch response, every input post is looked
up by composite id in the map built from the response items (last
binding winning, as in a dict), the returned result list has one entry
per input post in input order carrying that lookup, the returned total
is the sum of all those views, and a composite id absent from the
response items looks up to 0 rather than an error. -/
theorem vk_success_lookup (posts : List VKPost) (items : List VKItem) (status : Nat)
    (k : String) (hst : status < 400) (hk : k ∉ items.map vkKey) :
    vk_get_views true posts (.resp status (.ok items))
      = ((posts.map (fun p => dGet (buildViews items) p.post_id)).sum,
         posts.map (fun p => ViewResult.mk p.original_link (dGet (buildViews items) p.post_id)))
    ∧ dGet (buildViews items) k = 0 := by
  constructor
  · cases posts with
    | nil => simp [vk_get_views]
    | cons p rest =>
      have hred : vk_get_views true (p :: rest) (.resp status (.ok items))
          = vk_loop (buildViews items) (p :: rest) := by
        simp [vk_get_views, Nat.not_le.mpr hst]
      rw [hred]
      exact vk_loop_eq _ _
  · exact dGet_eq_zero _ _ (by rw [buildViews_keys]; exact hk)

theorem vk_success_lookup_witness :
    (0 : Nat) < 400
    ∧ "-9_9" ∉ ([⟨-1, 2, 10⟩] : List VKItem).map vkKey
    ∧ (vk_get_views true [⟨"-1_2", "l1"⟩, ⟨"-5_6", "l2"⟩] (.resp 0 (.ok [⟨-1, 2, 10⟩]))
        = ((([⟨"-1_2", "l1"⟩, ⟨"-5_6", "l2"⟩] : List VKPost).map
              (fun p => dGet (buildViews [⟨-1, 2, 10⟩]) p.post_id)).sum,
           ([⟨"-1_2", "l1"⟩, ⟨"-5_6", "l2"⟩] : List VKPost).map
              (fun p => ViewResult.mk p.original_link (dGet (buildViews [⟨-1, 2, 10⟩]) p.post_id)))
        ∧ dGet (buildViews [⟨-1, 2, 10⟩]) "-9_9" = 0) :=
  ⟨by decide, by decide,
    vk_success_lookup [⟨"-1_2", "l1"⟩, ⟨"-5_6", "l2"⟩] [⟨-1, 2, 10⟩] 0 "-9_9"
      (by decide) (by decide)⟩

/-- C7: for a non-empty VK batch, a transport failure, a non-success
HTTP status (raise_for_status fires at 400 and above) and an API-level
error object each make the whole platform fetch return `(0, [])`, with
no partial results. -/
theorem vk_batch_failure (posts : List VKPost) (s status2 : Nat) (b : VKBody)
    (msg : String) (hne : posts ≠ []) (hs : 400 ≤ s) :
    vk_get_views true posts .fail = (0, [])
    ∧ vk_get_views true posts (.resp s b) = (0, [])
    ∧ vk_get_views true posts (.resp status2 (.err msg)) = (0, []) := by
  cases posts with
  | nil => exact absurd rfl hne
  | cons p rest =>
    refine ⟨by simp [vk_get_views], ?_, ?_⟩
    · simp [vk_get_views, hs]
    · by_cases hc : 400 ≤ status2 <;> simp [vk_get_views, hc]

theorem vk_batch_failure_witness :
    ([⟨"-1_2", "l"⟩] : List VKPost) ≠ [] ∧ (400 : Nat) ≤ 500
    ∧ (vk_get_views true [⟨"-1_2", "l"⟩] .fail = (0, [])
       ∧ vk_get_views true [⟨"-1_2", "l"⟩] (.resp 500 (.ok [])) = (0, [])
       ∧ vk_get_views true [⟨"-1_2", "l"⟩] (.resp 200 (.err "Invalid token")) = (0, [])) :=
  ⟨by decide, by decide,
    vk_batch_failure [⟨"-1_2", "l"⟩] 500 200 (.ok []) "Invalid token" (by decide) (by decide)⟩

/-- C5: each of the three VK URL variants is classified into a VK post
reference whose composite id is the owner id normalised to carry a
leading minus, joined to the post id: all three yield composite id
-123_456 (owner -123, post 456), with the original link kept verbatim. -/
theorem vk_variant_normalization :
    extract_post_ids ["wall-123_456"]
      = ⟨[⟨"-123_456", "wall-123_456"⟩], [], []⟩
    ∧ extract_post_ids ["vk.com/wall123_456"]
      = ⟨[⟨"-123_456", "vk.com/wall123_456"⟩], [], []⟩
    ∧ extract_post_ids ["vk.com/club?w=wall-123_456"]
      = ⟨[⟨"-123_456", "vk.com/club?w=wall-123_456"⟩], [], []⟩ := by
  refine ⟨by decide, by decide, by decide⟩

theorem takeUntil_append_of_not_mem (c : Char) (ys : List Char) :
    ∀ xs : List Char, c ∉ xs → takeUntil c (xs ++ ys) = xs ++ takeUntil c ys := by
  intro xs
  induction xs with
  | nil => intro _; rfl
  | cons a t ih =>
    intro h
    have ha : ¬a = c := fun e => h (by simp [e])
    have ht : c ∉ t := fun m => h (by simp [m])
    simp [takeUntil, ha, ih ht]

theorem takeUntil_of_not_mem (c : Char) (xs : List Char) (h : c ∉ xs) :
    takeUntil c xs = xs := by
  have := takeUntil_append_of_not_mem c [] xs h
  simpa [takeUntil] using this

theorem cleanLink_strip (base q : List Char) (h1 : '?' ∉ base) (h2 : '#' ∉ base)
    (h3 : q.head? = some '?' ∨ q.head? = some '#') :
    cleanLink (base ++ q) = cleanLink base := by
  have hbase : cleanLink base = base := by
    unfold cleanLink
    rw [takeUntil_of_not_mem _ _ h1, takeUntil_of_not_mem _ _ h2]
  rw [hbase]
  cases q with
  | nil => simp at h3
  | cons c q =>
    unfold cleanLink
    rcases h3 with h3 | h3
    · have hc : c = '?' := by simpa using h3
      subst hc
      rw [takeUntil_append_of_not_mem _ _ _ h1]
      simp [takeUntil, takeUntil_of_not_mem _ _ h2]
    · have hc : c = '#' := by simpa using h3
      subst hc
      rw [takeUntil_append_of_not_mem _ _ _ h1]
      have : takeUntil '?' ('#' :: q) = '#' :: takeUntil '?' q := by
        simp [takeUntil]
      rw [this, takeUntil_append_of_not_mem _ _ _ h2]
      simp [takeUntil]

/-- C6: Telegram extraction strips the query string and fragment before
matching, so for a URL made of a clean base followed by a trailing part
that starts with a question mark or a hash, the extracted channel and
message id coincide with those extracted from the base alone. -/
theorem tg_strip_query_fragment (base q : List Char) (o o2 : String)
    (h1 : '?' ∉ base) (h2 : '#' ∉ base)
    (h3 : q.head? = some '?' ∨ q.head? = some '#') :
    (extract_telegram_post (String.mk (base ++ q)) o).map (fun p => (p.channel, p.message_id))
      = (extract_telegram_post (String.mk base) o2).map (fun p => (p.channel, p.message_id)) := by
  unfold extract_telegram_post
  have hc : cleanLink ((String.mk (base ++ q)).toList) = cleanLink ((String.mk base).toList) :=
    cleanLink_strip base q h1 h2 h3
  rw [hc]
  cases tg_match (cleanLink ((String.mk base).toList)) with
  | none => rfl
  | some x =>
    obtain ⟨ch, mid⟩ := x
    rfl

theorem tg_strip_query_fragment_witness :
    ('?' ∉ "t.me/name/42".toList ∧ '#' ∉ "t.me/name/42".toList
      ∧ ("?x=1".toList.head? = some '?' ∨ "?x=1".toList.head? = some '#'))
    ∧ (extract_telegram_post (String.mk ("t.me/name/42".toList ++ "?x=1".toList)) "t.me/name/42?x=1").map
        (fun p => (p.channel, p.message_id))
      = (extract_telegram_post (String.mk "t.me/name/42".toList) "t.me/name/42").map
        (fun p => (p.channel, p.message_id)) :=
  ⟨⟨by decide, by decide, Or.inl (by decide)⟩,
    tg_strip_query_fragment "t.me/name/42".toList "?x=1".toList "t.me/name/42?x=1" "t.me/name/42"
      (by decide) (by decide) (Or.inl (by decide))⟩

theorem classifyStep_eq (acc : Classified) (x : String) :
    classifyStep acc x
      = ⟨acc.vk ++ (vkF x).toList, acc.telegram ++ (tgF x).toList, acc.ok ++ (okF x).toList⟩ := by
  unfold classifyStep vkF tgF okF
  cases hv : vkDetect (pyLowerS x) <;> cases ht : tgDetect (pyLowerS x) <;>
    cases ho : okDetect (pyLowerS x) <;> simp [hv, ht, ho]

theorem filterMap_eq_toList_append {α β : Type} (f : α → Option β) (x : α) (xs : List α) :
    List.filterMap f (x :: xs) = (f x).toList ++ List.filterMap f xs := by
  cases h : f x <;> simp [List.filterMap_cons, h]

theorem classify_go (links : List String) :
    ∀ acc : Classified,
      links.foldl classifyStep acc
        = ⟨acc.vk ++ links.filterMap vkF, acc.telegram ++ links.filterMap tgF,
           acc.ok ++ links.filterMap okF⟩ := by
  induction links with
  | nil => intro acc; simp
  | cons x xs ih =>
    intro acc
    rw [List.foldl_cons, ih, classifyStep_eq]
    simp [filterMap_eq_toList_append]

theorem extract_vk_post_link (ll orig : String) :
    (extract_vk_post ll orig).map VKPost.original_link
      = (extract_vk_post ll orig).map (fun _ => orig) := by
  unfold extract_vk_post
  cases h1 : searchPos vkPat1Here ll.toList with
  | some x => obtain ⟨a, b⟩ := x; rfl
  | none =>
    cases h2 : searchPos vkPat2Here ll.toList with
    | some pid => rfl
    | none => cases h3 : searchPos vkPat3Here ll.toList <;> rfl

theorem extract_telegram_post_link (ll orig : String) :
    (extract_telegram_post ll orig).map TelegramPost.original_link
      = (extract_telegram_post ll orig).map (fun _ => orig) := by
  unfold extract_telegram_post
  cases h : tg_match (cleanLink ll.toList) with
  | none => rfl
  | some x => obtain ⟨a, b⟩ := x; rfl

theorem extract_ok_post_link (ll orig : String) :
    (extract_ok_post ll orig).map OKPost.original_link
      = (extract_ok_post ll orig).map (fun _ => orig) := by
  unfold extract_ok_post
  cases h1 : searchPos (okNamePatHere "topic".toList) ll.toList with
  | some x => obtain ⟨a, b⟩ := x; rfl
  | none =>
    cases h2 : searchPos (okNamePatHere "status".toList) ll.toList with
    | some x => obtain ⟨a, b⟩ := x; rfl
    | none =>
      cases h3 : searchPos okPat3Here ll.toList with
      | some x => obtain ⟨a, b⟩ := x; rfl
      | none => rfl

/-- C9: the classifier is a per-link filterMap for each platform, so
each output sequence preserves input order; the three per-link
contributions are mutually exclusive (the if/elif chain sends a link to
at most one platform list); and every produced reference carries its
original link verbatim. -/
theorem classify_structure (links : List String) (l : String) :
    extract_post_ids links
      = ⟨links.filterMap vkF, links.filterMap tgF, links.filterMap okF⟩
    ∧ (vkF l).isSome.toNat + (tgF l).isSome.toNat + (okF l).isSome.toNat ≤ 1
    ∧ (vkF l).map VKPost.original_link = (vkF l).map (fun _ => l)
    ∧ (tgF l).map TelegramPost.original_link = (tgF l).map (fun _ => l)
    ∧ (okF l).map OKPost.original_link = (okF l).map (fun _ => l) := by
  refine ⟨by simpa using classify_go links ⟨[], [], []⟩, ?_, ?_, ?_, ?_⟩
  · unfold vkF tgF okF
    cases hv : vkDetect (pyLowerS l) <;> cases ht : tgDetect (pyLowerS l) <;>
      cases ho : okDetect (pyLowerS l) <;>
      simp [hv, ht, ho, Bool.toNat_le]
  · unfold vkF
    cases hv : vkDetect (pyLowerS l) <;> simp [hv, extract_vk_post_link]
  · unfold tgF
    cases hb : (!vkDetect (pyLowerS l) && tgDetect (pyLowerS l)) <;>
      simp [hb, extract_telegram_post_link]
  · unfold okF
    cases hb : (!vkDetect (pyLowerS l) && !tgDetect (pyLowerS l) && okDetect (pyLowerS l)) <;>
      simp [hb, extract_ok_post_link]

/-- C1: the link-reading stage strips and drops blank lines and keeps
exactly the first 100 remaining links (never more), so the classification
the pipeline performs is unaffected by any links supplied beyond the
first 100: appending extra lines after 100 non-blank ones leaves the
classification outcome unchanged, and no error is involved (the reader
and classifier are total functions). -/
theorem classify_input_cap (lines extra : List String) :
    read_links_from_file lines = ((lines.map stripPy).filter (fun s => s ≠ "")).take 100
    ∧ (read_links_from_file lines).length ≤ 100
    ∧ (100 ≤ ((lines.map stripPy).filter (fun s => s ≠ "")).length →
        extract_post_ids (read_links_from_file (lines ++ extra))
          = extract_post_ids (read_links_from_file lines)) := by
  have h1 : ∀ ls : List String,
      read_links_from_file ls = ((ls.map stripPy).filter (fun s => s ≠ "")).take 100 := by
    intro ls
    unfold read_links_from_file
    by_cases hl : ((ls.map stripPy).filter (fun s => s ≠ "")).length > 100
    · simp [hl]
    · simp [hl, List.take_of_length_le (Nat.le_of_not_lt hl)]
  refine ⟨h1 lines, ?_, ?_⟩
  · rw [h1 lines, List.length_take]
    exact inf_le_left
  · intro h
    rw [h1 (lines ++ extra), h1 lines, List.map_append, List.filter_append,
      List.take_append_of_le_length h]

theorem classify_input_cap_witness :
    100 ≤ (((List.replicate 100 "wall-1_2").map stripPy).filter (fun s => s ≠ "")).length
    ∧ extract_post_ids (read_links_from_file (List.replicate 100 "wall-1_2" ++ ["t.me/x/1"]))
      = extract_post_ids (read_links_from_file (List.replicate 100 "wall-1_2")) :=
  ⟨by decide, (classify_input_cap (List.replicate 100 "wall-1_2") ["t.me/x/1"]).2.2 (by decide)⟩

theorem concatAll_cons (a : List Nat) (t : List (List Nat)) :
    concatAll (a :: t) = a ++ concatAll t := rfl

theorem filter_concatAll (p : Nat → Bool) (ls : List (List Nat)) :
    (concatAll ls).filter p = concatAll (ls.map (fun l => l.filter p)) := by
  induction ls with
  | nil => rfl
  | cons a t ih => simp [concatAll_cons, List.filter_append, ih]

/-- C4: the OK.ru heuristic equals taking every candidate integer the
three scans collect, keeping only those strictly between 10 and
1,000,000, and returning the greatest survivor (`maxOr0` returns 0 on an
empty list); on a page with a views-classed element containing 1234, an
unrelated element containing 5 and a meta tag mentioning views with
2000000, it yields 1234. -/
theorem ok_heuristic_range_max (soup : Soup) :
    extract_views_from_html soup = maxOr0 ((allCandidates soup).filter inRange)
    ∧ extract_views_from_html
        ⟨[⟨"viewsCount", "", "", "1234"⟩, ⟨"footer", "", "", "5"⟩], [],
         ["2000000 просмотров"]⟩ = 1234 := by
  constructor
  · unfold extract_views_from_html allCandidates
    simp [List.filter_append, filter_concatAll, List.map_map, Function.comp_def,
      strNums, metaNums, apply_ite (List.filter inRange), List.filter_nil]
    rfl
  · decide

/-- C8: when the link file yields a non-empty list, the run reports the
distinct no-data outcome exactly when the platform subtotal sum (with
empty platforms skipped) is zero, reports the numeric total exactly when
that sum is positive — and the reported number is that sum — and the
reported value is the aggregate of the classification of the (capped)
link list. -/
theorem aggregate_no_data_iff (c : Classified) (lines : List String) (v t o : Nat)
    (h : read_links_from_file lines ≠ []) :
    (aggregate_report c v t o = .noData ↔ guardedTotal c v t o = 0)
    ∧ (aggregate_report c v t o = .total (guardedTotal c v t o) ↔ 0 < guardedTotal c v t o)
    ∧ main_report lines v t o
      = some (aggregate_report (extract_post_ids (read_links_from_file lines)) v t o) := by
  refine ⟨?_, ?_, ?_⟩
  · unfold aggregate_report
    rcases Nat.eq_zero_or_pos (guardedTotal c v t o) with hz | hp
    · simp [hz]
    · simp [hp, hp.ne']
  · unfold aggregate_report
    rcases Nat.eq_zero_or_pos (guardedTotal c v t o) with hz | hp
    · simp [hz]
    · simp [hp]
  · unfold main_report
    simp [List.isEmpty_eq_false.mpr h]

theorem aggregate_no_data_iff_witness :
    read_links_from_file ["wall-1_2"] ≠ []
    ∧ ((aggregate_report ⟨[⟨"-1_2", "wall-1_2"⟩], [], []⟩ 5 0 0 = .noData
          ↔ guardedTotal ⟨[⟨"-1_2", "wall-1_2"⟩], [], []⟩ 5 0 0 = 0)
       ∧ (aggregate_report ⟨[⟨"-1_2", "wall-1_2"⟩], [], []⟩ 5 0 0
            = .total (guardedTotal ⟨[⟨"-1_2", "wall-1_2"⟩], [], []⟩ 5 0 0)
          ↔ 0 < guardedTotal ⟨[⟨"-1_2", "wall-1_2"⟩], [], []⟩ 5 0 0)
       ∧ main_report ["wall-1_2"] 5 0 0
          = some (aggregate_report (extract_post_ids (read_links_from_file ["wall-1_2"])) 5 0 0)) :=
  ⟨by decide, aggregate_no_data_iff ⟨[⟨"-1_2", "wall-1_2"⟩], [], []⟩ ["wall-1_2"] 5 0 0 (by decide)⟩

end Parsr
